import Mathlib

/-!
Verification development for the `natsservice` repository: a shallow
embedding of the type registry (`pkg/typeregistry/typeregistry.go`), the
key-value facade (`pkg/keyvalue`), and the service/endpoint wrapper
(`service.go`, `endpoint.go`), together with theorems settling the
specification's testable properties and invariants.

Modelling conventions:
* Go maps become association lists with unique keys maintained by
  `insertA` (overwrite-or-append) and `eraseA`; no claim depends on map
  iteration order.
* `reflect.Type` becomes the inductive `RType`; only the kinds the code
  inspects (pointer, struct, other) are distinguished.
* JSON payload bytes of a marshaled struct value are kept abstract as the
  string `payload` carried by the value: `json.Marshal` of a registered
  pointer-to-struct value is deterministic and cannot fail, and
  `json.Unmarshal` of those bytes back into a freshly allocated value of
  the same type succeeds and reproduces the value.  The outer wire format
  of `Registry.Marshal` is a JSON document with `type` and `data` fields;
  since that encoding is injective and parsed back by `Registry.Unmarshal`
  into the same two fields, the byte string is represented by the
  `TypedData` record itself.
* Go sentinel errors and `fmt.Errorf("%w: ...")` wrapping become the
  inductive `RegErr`; `errors.Is(err, ErrX)` is constructor inspection.
* The `sync.RWMutex` guards and the `r == nil` receiver checks are not
  modelled: every operation here acts on a valid registry value and the
  claims are about sequential behaviour.
-/

section AssocMap

variable {α : Type} {β : Type} [DecidableEq α]

/-- Lookup in an association list, the model of Go map indexing. -/
def lookupA : List (α × β) → α → Option β
  | [], _ => none
  | (k', v') :: t, k => if k' = k then some v' else lookupA t k

/-- Insertion in an association list, the model of Go map assignment:
overwrite the existing entry for the key, or append a new entry. -/
def insertA : List (α × β) → α → β → List (α × β)
  | [], k, v => [(k, v)]
  | (k', v') :: t, k, v =>
      if k' = k then (k, v) :: t else (k', v') :: insertA t k v

/-- Deletion from an association list, the model of Go's `delete`. -/
def eraseA : List (α × β) → α → List (α × β)
  | [], _ => []
  | (k', v') :: t, k => if k' = k then eraseA t k else (k', v') :: eraseA t k

theorem lookupA_insertA_self (l : List (α × β)) (k : α) (v : β) :
    lookupA (insertA l k v) k = some v := by
  induction l with
  | nil => simp [insertA, lookupA]
  | cons h t ih =>
      obtain ⟨k', v'⟩ := h
      by_cases hk : k' = k
      · simp [insertA, hk, lookupA]
      · simp [insertA, hk, lookupA, ih]

theorem lookupA_insertA_ne (l : List (α × β)) (k k' : α) (v : β) (h : k ≠ k') :
    lookupA (insertA l k v) k' = lookupA l k' := by
  induction l with
  | nil => simp [insertA, lookupA, h]
  | cons hd t ih =>
      obtain ⟨k₀, v₀⟩ := hd
      by_cases hk : k₀ = k
      · subst hk
        simp [insertA, lookupA, h, ih]
      · simp only [insertA, if_neg hk]
        by_cases hk' : k₀ = k'
        · simp [lookupA, hk']
        · simp [lookupA, hk', ih]

theorem lookupA_eraseA_self (l : List (α × β)) (k : α) :
    lookupA (eraseA l k) k = none := by
  induction l with
  | nil => simp [eraseA, lookupA]
  | cons hd t ih =>
      obtain ⟨k₀, v₀⟩ := hd
      by_cases hk : k₀ = k
      · simp [eraseA, hk, ih]
      · simp [eraseA, hk, lookupA, ih]

theorem lookupA_eraseA_ne (l : List (α × β)) (k k' : α) (h : k ≠ k') :
    lookupA (eraseA l k) k' = lookupA l k' := by
  induction l with
  | nil => simp [eraseA]
  | cons hd t ih =>
      obtain ⟨k₀, v₀⟩ := hd
      by_cases hk : k₀ = k
      · subst hk
        simp [eraseA, lookupA, h, ih]
      · simp only [eraseA, if_neg hk]
        by_cases hk' : k₀ = k'
        · simp [lookupA, hk']
        · simp [lookupA, hk', ih]

/-- Erasing a whole list of keys, the model of the deletion loop in
`Registry.Unregister`. -/
def eraseAllA (l : List (α × β)) (ks : List α) : List (α × β) :=
  ks.foldl (fun m a => eraseA m a) l

theorem lookupA_eraseAllA (l : List (α × β)) (ks : List α) (k : α) :
    lookupA (eraseAllA l ks) k = if k ∈ ks then none else lookupA l k := by
  induction ks generalizing l with
  | nil => simp [eraseAllA]
  | cons a t ih =>
      simp only [eraseAllA, List.foldl_cons, List.mem_cons]
      rw [show List.foldl (fun m x => eraseA m x) (eraseA l a) t
            = eraseAllA (eraseA l a) t from rfl, ih]
      by_cases hka : k = a
      · subst hka
        simp [lookupA_eraseA_self]
      · by_cases hkt : k ∈ t
        · simp [hkt]
        · simp [hkt, hka, lookupA_eraseA_ne l a k (fun h => hka h.symm)]

end AssocMap

/-- Reflected Go types as far as the registry inspects them: a pointer
kind with its element type, a struct kind with its package path and type
name, or any other kind.  Mirrors the uses of `reflect.Type` in
`typeregistry.go` (`Kind`, `Elem`, `PkgPath`, `Name`). -/
inductive RType where
  | ptrTo (elem : RType)
  | structT (pkgPath : String) (tname : String)
  | otherT (pkgPath : String) (tname : String)
deriving DecidableEq, Repr

/-- Translation of `normalizeType`: the element type for pointers, the
type itself otherwise. -/
def normalizeType (rt : RType) : RType :=
  match rt with
  | .ptrTo e => e
  | x => x

/-- The check `rt.Kind() == reflect.Ptr && rt.Elem().Kind() == reflect.Struct`
from `registerWithOptions` and `RegisterBatch`. -/
def isPtrToStruct (rt : RType) : Bool :=
  match rt with
  | .ptrTo (.structT _ _) => true
  | _ => false

/-- Translation of `inferTypeName` applied to the element type
`rt.Elem()`: package-qualified name, or the bare type name when the
package path is empty. -/
def inferTypeNameOf (elemT : RType) : String :=
  match elemT with
  | .structT pkgPath tname =>
      if pkgPath = "" then tname
      else ((pkgPath.splitOn "/").getLastD "") ++ "." ++ tname
  | .otherT pkgPath tname =>
      if pkgPath = "" then tname
      else ((pkgPath.splitOn "/").getLastD "") ++ "." ++ tname
  | .ptrTo _ => ""

/-- Character class of `nameRegex`, the pattern `[a-zA-Z0-9_.-]`. -/
def nameCharOk (c : Char) : Bool :=
  (('a' ≤ c && c ≤ 'z') || ('A' ≤ c && c ≤ 'Z') || ('0' ≤ c && c ≤ '9')
    || c = '_' || c = '.' || c = '-')

/-- Translation of `nameRegex.MatchString` for `^[a-zA-Z0-9_.-]+$`: a
non-empty string of allowed characters. -/
def nameRegexMatch (s : String) : Bool :=
  !(s = "") && s.data.all nameCharOk

/-- Sentinel errors of the `typeregistry` package with their wrapping
message; `errors.Is(err, ErrX)` corresponds to matching the constructor.
`goPanic` models the run-time panic raised by `reflect.Type.Elem` when
name inference is reached with a non-pointer type. -/
inductive RegErr where
  | notValid (msg : String)
  | alreadyExists (msg : String)
  | notRegistered (msg : String)
  | marshalE (msg : String)
  | unmarshalE (msg : String)
  | goPanic (msg : String)
deriving DecidableEq, Repr

/-- Does an error wrap the `ErrTypeAlreadyExists` sentinel, that is,
would `errors.Is(err, ErrTypeAlreadyExists)` hold. -/
def RegErr.isAlreadyExists : RegErr → Bool
  | .alreadyExists _ => true
  | _ => false

/-- Does an error wrap the `ErrUnmarshal` sentinel. -/
def RegErr.wrapsUnmarshal : RegErr → Bool
  | .unmarshalE _ => true
  | _ => false

/-- Does an error wrap the `ErrTypeNotRegistered` sentinel. -/
def RegErr.wrapsNotRegistered : RegErr → Bool
  | .notRegistered _ => true
  | _ => false

/-- A dynamically typed Go value (`any`): the nil interface, or a value
of reflected type `rt` whose JSON encoding is the abstract byte string
`payload`. -/
inductive GoVal where
  | nilV
  | val (rt : RType) (payload : String)
deriving DecidableEq, Repr

/-- Model of `json.Marshal` on an interface value: the deterministic
encoding carried by the value (`null` for the nil interface). -/
def jsonMarshalValue : GoVal → String
  | .nilV => "null"
  | .val _ payload => payload

/-- Translation of the `TypedData` struct: the `type` and `data` JSON
fields.  The byte string produced by `json.Marshal` of a `TypedData` is
represented by the record itself (the encoding is injective and is parsed
back into the same two fields). -/
structure TypedData where
  ty : String
  data : String
deriving DecidableEq, Repr

/-- Translation of the `TypeInfo` struct.  The `interface{}` metadata
values are abstracted to strings; the validation hook keeps its Go shape
`func(any) error` with `none` standing for a nil error. -/
structure TypeInfo where
  rtype : RType
  metadata : Option (List (String × String))
  aliases : List String
  validate : Option (GoVal → Option String)

/-- Translation of the `Registry` struct: the three maps guarded by the
mutex.  The `jsonCache` is omitted as no claim observes it. -/
structure Registry where
  types : List (String × TypeInfo)
  rtypes : List (RType × String)
  aliases : List (String × String)

/-- Translation of `New`. -/
def Registry.new : Registry := ⟨[], [], []⟩

/-- Translation of `registerWithOptions`: name inference for an empty
name (where `reflect.Type.Elem` panics on a non-pointer type), the
`nameRegex` check, the pointer-to-struct check, the existence check on
the `types` map only, and finally the insertion into `types` and the
normalized-type insertion into `rtypes`. -/
def Registry.registerWithOptions (r : Registry) (name : String) (rt : RType)
    (metadata : Option (List (String × String)))
    (validate : Option (GoVal → Option String)) : Except RegErr Registry :=
  let nameE : Except RegErr String :=
    if name = "" then
      match rt with
      | .ptrTo e => .ok (inferTypeNameOf e)
      | _ => .error (.goPanic "reflect: Elem of invalid type")
    else .ok name
  match nameE with
  | .error e => .error e
  | .ok name =>
    if nameRegexMatch name = false then
      .error (.notValid "invalid name")
    else if isPtrToStruct rt = false then
      .error (.notValid "must be a pointer to a struct")
    else
      match lookupA r.types name with
      | some _ => .error (.alreadyExists name)
      | none =>
          let info : TypeInfo := ⟨rt, metadata, [], validate⟩
          .ok { r with
                  types := insertA r.types name info,
                  rtypes := insertA r.rtypes (normalizeType rt) name }

/-- Translation of the generic `Register[T]` helper: the registered
`reflect.Type` is `reflect.TypeOf(&zero)`, always a pointer to `T`. -/
def Registry.registerG (r : Registry) (name : String) (elemT : RType) :
    Except RegErr Registry :=
  r.registerWithOptions name (.ptrTo elemT) none none

/-- Translation of `RegisterWithValidation[T]`. -/
def Registry.registerWithValidationG (r : Registry) (name : String) (elemT : RType)
    (validate : GoVal → Option String) : Except RegErr Registry :=
  r.registerWithOptions name (.ptrTo elemT) none (some validate)

/-- Translation of `AddAlias`: alias regex check, primary-name existence
check, double-registration checks against both `aliases` and `types`,
then the alias-map insertion and the append to the primary's alias
list. -/
def Registry.addAlias (r : Registry) (al : String) (primaryName : String) :
    Except RegErr Registry :=
  if nameRegexMatch al = false then
    .error (.notValid "invalid alias")
  else
    match lookupA r.types primaryName with
    | none => .error (.notRegistered primaryName)
    | some info =>
        match lookupA r.aliases al with
        | some _ => .error (.alreadyExists al)
        | none =>
            match lookupA r.types al with
            | some _ => .error (.alreadyExists al)
            | none =>
                .ok { r with
                        aliases := insertA r.aliases al primaryName,
                        types := insertA r.types primaryName
                          { info with aliases := info.aliases ++ [al] } }

/-- Translation of the `TypeEntry` struct for batch registration. -/
structure TypeEntry where
  name : String
  rtype : RType
  metadata : Option (List (String × String))
  validate : Option (GoVal → Option String)

/-- Name of a batch entry after the empty-name inference step; `none`
models the `reflect.Type.Elem` panic on a non-pointer type. -/
def batchEntryName (e : TypeEntry) : Option String :=
  if e.name = "" then
    match e.rtype with
    | .ptrTo el => some (inferTypeNameOf el)
    | _ => none
  else some e.name

/-- Validation phase of `RegisterBatch`: the first failing check wins,
each entry checked against the registry as it was before the batch. -/
def batchValidate (r : Registry) : List TypeEntry → Option RegErr
  | [] => none
  | e :: t =>
      match batchEntryName e with
      | none => some (.goPanic "reflect: Elem of invalid type")
      | some name =>
          if nameRegexMatch name = false then some (.notValid "invalid name")
          else if isPtrToStruct e.rtype = false then
            some (.notValid "must be a pointer to a struct")
          else
            match lookupA r.types name with
            | some _ => some (.alreadyExists name)
            | none => batchValidate r t

/-- Mutation phase of `RegisterBatch`, run only after every entry
validated. -/
def batchApply (r : Registry) : List TypeEntry → Registry
  | [] => r
  | e :: t =>
      match batchEntryName e with
      | none => batchApply r t
      | some name =>
          let info : TypeInfo := ⟨e.rtype, e.metadata, [], e.validate⟩
          batchApply
            { r with
                types := insertA r.types name info,
                rtypes := insertA r.rtypes (normalizeType e.rtype) name } t

/-- Translation of `RegisterBatch`: validate all entries first, then
register all of them; on any validation error the registry is
untouched. -/
def Registry.registerBatch (r : Registry) (entries : List TypeEntry) :
    Except RegErr Registry :=
  match batchValidate r entries with
  | some e => .error e
  | none => .ok (batchApply r entries)

/-- Translation of `resolveName`: one alias-map lookup, the name itself
when it is not an alias. -/
def Registry.resolveName (r : Registry) (name : String) : String :=
  match lookupA r.aliases name with
  | some primary => primary
  | none => name

/-- Translation of `Registry.New`: resolve the alias, look up the type,
allocate a fresh zero value of the registered pointer type.  The JSON
payload of the untouched zero value is abstracted to the empty string. -/
def Registry.newValue (r : Registry) (name : String) : Except RegErr GoVal :=
  let name := r.resolveName name
  match lookupA r.types name with
  | none => .error (.notRegistered name)
  | some info => .ok (.val info.rtype "")

/-- Translation of `NameOf`: nil check, then reverse lookup of the
normalized dynamic type. -/
def Registry.nameOf (r : Registry) (v : GoVal) : Except RegErr String :=
  match v with
  | .nilV => .error (.notRegistered "nil value")
  | .val rt _ =>
      match lookupA r.rtypes (normalizeType rt) with
      | none => .error (.notRegistered "type not registered")
      | some name => .ok name

/-- Translation of `Unregister`: resolve the alias, look up the type,
delete every alias recorded in its `Aliases` list, then delete the
`types` and normalized `rtypes` entries. -/
def Registry.unregister (r : Registry) (name : String) : Except RegErr Registry :=
  let name := r.resolveName name
  match lookupA r.types name with
  | none => .error (.notRegistered name)
  | some info =>
      .ok { types := eraseA r.types name,
            rtypes := eraseA r.rtypes (normalizeType info.rtype),
            aliases := eraseAllA r.aliases info.aliases }

/-- Translation of `Clear`. -/
def Registry.clear (_ : Registry) : Registry := ⟨[], [], []⟩

/-- Translation of `Registry.Marshal`: reverse name lookup, JSON
encoding of the value, and the tagged `TypedData` document that the
final `json.Marshal` serializes. -/
def Registry.marshal (r : Registry) (v : GoVal) : Except RegErr TypedData :=
  match r.nameOf v with
  | .error e => .error e
  | .ok name => .ok ⟨name, jsonMarshalValue v⟩

/-- Translation of `UnmarshalType`: alias resolution, type lookup, fresh
allocation of the registered type, `json.Unmarshal` of the payload into
it (which for a byte string decoded into its own struct type reproduces
the payload), then the optional validation hook, whose failure is
wrapped in `ErrUnmarshal` and returned with a nil value. -/
def Registry.unmarshalType (r : Registry) (name : String) (data : String) :
    Except RegErr GoVal :=
  let name := r.resolveName name
  match lookupA r.types name with
  | none => .error (.notRegistered name)
  | some info =>
      let v := GoVal.val info.rtype data
      match info.validate with
      | none => .ok v
      | some f =>
          match f v with
          | some _ => .error (.unmarshalE "validation failed")
          | none => .ok v

/-- Translation of `Registry.Unmarshal`: parse the tagged document,
reject a missing `type` field, and delegate to `UnmarshalType`. -/
def Registry.unmarshal (r : Registry) (b : TypedData) : Except RegErr GoVal :=
  if b.ty = "" then .error (.unmarshalE "missing type field")
  else r.unmarshalType b.ty b.data

/-- Translation of `MarshalTypedData`: like `Marshal` but returning the
`TypedData` record itself. -/
def Registry.marshalTypedData (r : Registry) (v : GoVal) : Except RegErr TypedData :=
  match r.nameOf v with
  | .error e => .error e
  | .ok name => .ok ⟨name, jsonMarshalValue v⟩

/-- Translation of `UnmarshalTypedData`: nil check, missing-type check,
then delegation to `UnmarshalType`. -/
def Registry.unmarshalTypedData (r : Registry) (td : Option TypedData) :
    Except RegErr GoVal :=
  match td with
  | none => .error (.unmarshalE "nil TypedData")
  | some td =>
      if td.ty = "" then .error (.unmarshalE "missing type field")
      else r.unmarshalType td.ty td.data

/-- Translation of `GetTypeInfo`: alias resolution then type lookup. -/
def Registry.getTypeInfo (r : Registry) (name : String) : Except RegErr TypeInfo :=
  let name := r.resolveName name
  match lookupA r.types name with
  | none => .error (.notRegistered name)
  | some info => .ok info

/-- Public mutating operations of the registry, for describing call
sequences against a registry.  `regOpts` covers `Register`,
`RegisterWithMetadata` and `RegisterWithValidation` (all delegate to
`registerWithOptions`). -/
inductive RegOp where
  | regOpts (name : String) (rt : RType)
      (metadata : Option (List (String × String)))
      (validate : Option (GoVal → Option String))
  | addAlias (al : String) (primaryName : String)
  | regBatch (entries : List TypeEntry)
  | unreg (name : String)
  | clearOp

/-- One mutating call against the registry.  A call that returns an
error leaves the registry as it was: in the source every error return
happens before any map mutation (and `RegisterBatch` validates every
entry before mutating). -/
def applyOp (r : Registry) (op : RegOp) : Registry :=
  match op with
  | .regOpts name rt md vf =>
      match r.registerWithOptions name rt md vf with
      | .ok r' => r'
      | .error _ => r
  | .addAlias al p =>
      match r.addAlias al p with
      | .ok r' => r'
      | .error _ => r
  | .regBatch entries =>
      match r.registerBatch entries with
      | .ok r' => r'
      | .error _ => r
  | .unreg name =>
      match r.unregister name with
      | .ok r' => r'
      | .error _ => r
  | .clearOp => r.clear

/-- Registry state after a sequence of mutating calls starting from
`New()`. -/
def runOps (ops : List RegOp) : Registry :=
  ops.foldl applyOp Registry.new

/-- Set-option closure list of the `keyvalue` package (`SetOption` is
`func(*setOptions)`); the only field is the TTL in nanoseconds. -/
structure SetOptions where
  ttl : Int

/-- Folding the option closures over the zero-valued `setOptions`, as
both `Set` implementations do. -/
def applySetOpts (opts : List (SetOptions → SetOptions)) : SetOptions :=
  opts.foldl (fun o f => f o) ⟨0⟩

/-- Errors of the `keyvalue` package.  `emptyKey` and `keyNotFound` are
the sentinels `ErrEmptyKey` and `ErrKeyNotFound`; the others model the
distinct non-sentinel `errors.New`/`fmt.Errorf` failures, with the two
wrapping constructors keeping the registry error they wrap. -/
inductive KVErr where
  | emptyKey
  | keyNotFound
  | ttlUnsupported
  | registryRequired
  | marshalFailed (e : RegErr)
  | unmarshalFailed (e : RegErr)
  | decodeFailed
deriving DecidableEq, Repr

/-- Stored byte strings of a key-value store: either opaque bytes set
through `Set`, or the `json.Marshal` image of a `TypedData` document
written by `SetTyped` (which `json.Unmarshal` into a `TypedData`
recovers). -/
inductive Bytes where
  | raw (s : String)
  | typedDoc (td : TypedData)
deriving DecidableEq, Repr

/-- Model of `json.Unmarshal(data, &typedData)` in the two `GetTyped`
implementations, on the byte strings this development stores. -/
def decodeTypedDoc : Bytes → Option TypedData
  | .typedDoc td => some td
  | .raw _ => none

/-- Translation of the `MemoryKV` struct: the guarded `data` map and the
optional registry pointer. -/
structure MemoryKV where
  data : List (String × Bytes)
  registry : Option Registry

/-- Translation of `NewMemoryKV`. -/
def MemoryKV.new : MemoryKV := ⟨[], none⟩

/-- Translation of `NewMemoryKVWithOptions`. -/
def MemoryKV.newWithOptions (registry : Option Registry) : MemoryKV :=
  ⟨[], registry⟩

/-- Translation of `MemoryKV.Set`: empty-key check, option processing
with the TTL rejection, then the map write (the defensive byte copy is
invisible to the model's immutable byte strings). -/
def MemoryKV.set (m : MemoryKV) (key : String) (value : Bytes)
    (opts : List (SetOptions → SetOptions)) : Except KVErr MemoryKV :=
  if key = "" then .error .emptyKey
  else
    let options := applySetOpts opts
    if options.ttl > 0 then .error .ttlUnsupported
    else .ok { m with data := insertA m.data key value }

/-- Translation of `MemoryKV.Get`. -/
def MemoryKV.get (m : MemoryKV) (key : String) : Except KVErr Bytes :=
  if key = "" then .error .emptyKey
  else
    match lookupA m.data key with
    | none => .error .keyNotFound
    | some v => .ok v

/-- Translation of `MemoryKV.Delete`. -/
def MemoryKV.delete (m : MemoryKV) (key : String) : Except KVErr MemoryKV :=
  if key = "" then .error .emptyKey
  else .ok { m with data := eraseA m.data key }

/-- Translation of `MemoryKV.Exists`. -/
def MemoryKV.exists (m : MemoryKV) (key : String) : Except KVErr Bool :=
  if key = "" then .error .emptyKey
  else .ok (lookupA m.data key).isSome

/-- Translation of `MemoryKV.SetTyped`: registry-presence check first,
then the empty-key check, option processing, `MarshalTypedData`, and the
store of the JSON-encoded document. -/
def MemoryKV.setTyped (m : MemoryKV) (key : String) (value : GoVal)
    (opts : List (SetOptions → SetOptions)) : Except KVErr MemoryKV :=
  match m.registry with
  | none => .error .registryRequired
  | some reg =>
      if key = "" then .error .emptyKey
      else
        let options := applySetOpts opts
        if options.ttl > 0 then .error .ttlUnsupported
        else
          match reg.marshalTypedData value with
          | .error e => .error (.marshalFailed e)
          | .ok td => .ok { m with data := insertA m.data key (.typedDoc td) }

/-- Translation of `MemoryKV.GetTyped`: registry-presence check first,
then the empty-key check, the map lookup, the decode into `TypedData`,
and `UnmarshalTypedData`. -/
def MemoryKV.getTyped (m : MemoryKV) (key : String) : Except KVErr GoVal :=
  match m.registry with
  | none => .error .registryRequired
  | some reg =>
      if key = "" then .error .emptyKey
      else
        match lookupA m.data key with
        | none => .error .keyNotFound
        | some data =>
            match decodeTypedDoc data with
            | none => .error .decodeFailed
            | some td =>
                match reg.unmarshalTypedData (some td) with
                | .error e => .error (.unmarshalFailed e)
                | .ok v => .ok v

/-- Translation of `MemoryKV.DeleteTyped`, which delegates to
`Delete`. -/
def MemoryKV.deleteTyped (m : MemoryKV) (key : String) : Except KVErr MemoryKV :=
  m.delete key

/-- Translation of the `JetStreamKV` struct.  The external JetStream
bucket is modelled as a key-to-bytes map; its `Put`, `Get` and `Purge`
calls succeed in the model (their transport failures are outside the
program).  `jetstream.ErrKeyNotFound` is translated to the package's
`ErrKeyNotFound` exactly as `Get` does. -/
structure JetStreamKV where
  bucket : List (String × Bytes)
  registry : Option Registry

/-- Translation of `JetStreamKV.Set`: empty-key check, the per-key TTL
rejection, then `bucket.Put`. -/
def JetStreamKV.set (kv : JetStreamKV) (key : String) (value : Bytes)
    (opts : List (SetOptions → SetOptions)) : Except KVErr JetStreamKV :=
  if key = "" then .error .emptyKey
  else
    let options := applySetOpts opts
    if options.ttl > 0 then .error .ttlUnsupported
    else .ok { kv with bucket := insertA kv.bucket key value }

/-- Translation of `JetStreamKV.Get`. -/
def JetStreamKV.get (kv : JetStreamKV) (key : String) : Except KVErr Bytes :=
  if key = "" then .error .emptyKey
  else
    match lookupA kv.bucket key with
    | none => .error .keyNotFound
    | some v => .ok v

/-- Translation of `JetStreamKV.Delete` (a `Purge` whose key-not-found
outcome is swallowed). -/
def JetStreamKV.delete (kv : JetStreamKV) (key : String) : Except KVErr JetStreamKV :=
  if key = "" then .error .emptyKey
  else .ok { kv with bucket := eraseA kv.bucket key }

/-- Translation of `JetStreamKV.Exists`. -/
def JetStreamKV.exists (kv : JetStreamKV) (key : String) : Except KVErr Bool :=
  if key = "" then .error .emptyKey
  else .ok (lookupA kv.bucket key).isSome

/-- Translation of `EndpointConfig` (`endpoint.go`): the fields consumed
by `Service.AddEndpoint`.  The `UserData` field is never read there and
is omitted. -/
structure EndpointConfig where
  ename : String
  emetadata : List (String × String)
  queueGroup : String
  subject : String

/-- Endpoint options handed to the underlying messaging library by
`Service.AddEndpoint` (`micro.WithEndpointSubject`,
`micro.WithEndpointMetadata`, `micro.WithEndpointQueueGroup`,
`micro.WithEndpointQueueGroupDisabled`). -/
inductive MicroOpt where
  | withSubject (s : String)
  | withMetadata (m : List (String × String))
  | withQueueGroup (q : String)
  | queueGroupDisabled
deriving DecidableEq, Repr

/-- Translation of the option-building block of `Service.AddEndpoint`
(`service.go` lines 117-135): the subject option when a custom subject
is set, the metadata option under the guard
`len(config.Metadata) > 0 && len(config.Metadata) == 0`, and the queue
group option or its disabling. -/
def buildEndpointOpts (config : EndpointConfig) : List MicroOpt :=
  let opts : List MicroOpt := []
  let opts := if config.subject ≠ "" then opts ++ [.withSubject config.subject] else opts
  let opts :=
    if config.emetadata.length > 0 ∧ config.emetadata.length = 0 then
      opts ++ [.withMetadata config.emetadata]
    else opts
  if config.queueGroup ≠ "" then opts ++ [.withQueueGroup config.queueGroup]
  else opts ++ [.queueGroupDisabled]

/-- A Go interface value carried by `panic`/`recover`, as far as
`RecoverPanic` inspects it: nil or a non-nil payload. -/
inductive GoAny where
  | nilA
  | someA (payload : String)
deriving DecidableEq, Repr

/-- Run-time adjustment of a panic value before `recover` observes it:
since Go 1.21 (this module requires go 1.24) `panic(nil)` is converted
to a non-nil `*runtime.PanicNilError`. -/
def runtimePanicValue : GoAny → GoAny
  | .nilA => .someA "runtime.PanicNilError"
  | x => x

/-- An error response sent to the client through `micro.Request.Error`. -/
structure ErrResponse where
  code : String
  msg : String
deriving DecidableEq, Repr

/-- Translation of the body of `RecoverPanic` (`endpoint.go` lines
78-87) as a function of what its `recover()` call returns: on a non-nil
recovered value it logs and sends the `"500"`/`"internal error"`
response; on nil it does nothing. -/
def recoverPanicResponses (recovered : GoAny) : List ErrResponse :=
  match recovered with
  | .nilA => []
  | .someA _ => [⟨"500", "internal error"⟩]

/-- Outcome of executing an endpoint handler body: normal completion, or
a panic carrying a value. -/
inductive HandlerOutcome where
  | completes
  | panics (v : GoAny)

/-- Observable result of running a handler that deferred `RecoverPanic`
as its first statement: the error responses the deferred function sends,
and the panic value propagating to the caller, if any. -/
structure HandlerRun where
  responses : List ErrResponse
  propagatedPanic : Option GoAny
deriving DecidableEq, Repr

/-- Semantics of `defer RecoverPanic(e, request)` around a handler body,
per Go's defer/recover rules: on normal completion the deferred
`recover()` returns nil; on a panic the deferred function runs with
`recover()` returning the (run-time adjusted, hence non-nil) panic value,
and because `recover` was called during panicking, the panic stops and
nothing propagates to the caller. -/
def runHandlerWithRecover (outcome : HandlerOutcome) : HandlerRun :=
  match outcome with
  | .completes => ⟨recoverPanicResponses .nilA, none⟩
  | .panics v => ⟨recoverPanicResponses (runtimePanicValue v), none⟩

/-- Example registered struct types used by concrete registries. -/
def tyUser : RType := .structT "github.com/example/app" "User"

/-- Second example struct type. -/
def tyOrder : RType := .structT "github.com/example/app" "Order"

/-- Third example struct type. -/
def tyThing : RType := .structT "github.com/example/app" "Thing"

/-- Registry reached by registering type `a`, aliasing `b` to `a`, and
then registering a second type under the name `b`, which the existence
check of `registerWithOptions` (types map only) lets through. -/
def c2Reg : Registry :=
  runOps [.regOpts "a" (.ptrTo tyUser) none none,
          .addAlias "b" "a",
          .regOpts "b" (.ptrTo tyOrder) none none]

/-- C2: the claimed invariant, that in every reachable registry state the
primary type names and the alias names are disjoint, is violated by the
code: `registerWithOptions` (and the batch validation loop) checks the
candidate name only against the `types` map, never against `aliases`,
while `AddAlias` carefully checks both maps.  After `Register(a)`,
`AddAlias(b, a)`, `Register(b)`, the name `b` is simultaneously a key of
the types map and a key of the aliases map, and the type just registered
under `b` is unreachable: `New("b")` resolves the alias first and
returns a value of the type registered under `a`. -/
theorem c2_alias_shadow_bug :
    (lookupA c2Reg.types "b").isSome = true ∧
    (lookupA c2Reg.aliases "b").isSome = true ∧
    c2Reg.newValue "b" = .ok (.val (.ptrTo tyUser) "") :=
  ⟨rfl, rfl, rfl⟩

/-- Registry extending the `c2Reg` sequence with `AddAlias(c, b)`, which
succeeds because `b` is (also) a primary type name. -/
def c5Reg : Registry :=
  runOps [.regOpts "a" (.ptrTo tyUser) none none,
          .addAlias "b" "a",
          .regOpts "b" (.ptrTo tyOrder) none none,
          .addAlias "c" "b"]

/-- C5: the claimed invariant, that every alias maps to a name that is a
primary key of the types map and is itself never an alias, is violated
in a reachable state: after `Register(a)`, `AddAlias(b, a)`,
`Register(b)`, `AddAlias(c, b)`, the alias `c` maps to `b`, and `b` is
itself an alias (of `a`); resolving `c` and resolving `b` reach two
different primary entries even though `c` was aliased to `b`. -/
theorem c5_alias_chain_bug :
    lookupA c5Reg.aliases "c" = some "b" ∧
    lookupA c5Reg.aliases "b" = some "a" ∧
    (lookupA c5Reg.types "b").isSome = true := by
  refine ⟨by decide, by decide, rfl⟩

/-- C7: for every endpoint handler invocation that panics after
deferring `RecoverPanic`, the panic is recovered (nothing propagates to
the caller) and the client receives the error response with code `500`
and message `internal error`.  Holds for every panic value, including
`panic(nil)`, which the go 1.24 runtime converts to the non-nil
`*runtime.PanicNilError` before `recover` observes it. -/
theorem c7_recover_panic (v : GoAny) :
    runHandlerWithRecover (.panics v) =
      ⟨[⟨"500", "internal error"⟩], none⟩ := by
  cases v <;> rfl

/-- Recognizer for the `micro.WithEndpointMetadata` option. -/
def isMetadataOpt : MicroOpt → Bool
  | .withMetadata _ => true
  | _ => false

/-- C9: `Service.AddEndpoint` never includes an endpoint-metadata option
in the option list it passes to the messaging library, whatever the
configuration: the guard `len(config.Metadata) > 0 && len(config.Metadata) == 0`
is unsatisfiable, so endpoint metadata is silently dropped.  Stated as:
filtering the built option list for metadata options always yields the
empty list. -/
theorem c9_metadata_never_passed (config : EndpointConfig) :
    (buildEndpointOpts config).filter isMetadataOpt = [] := by
  simp only [buildEndpointOpts]
  rw [if_neg (by omega : ¬(config.emetadata.length > 0 ∧ config.emetadata.length = 0))]
  by_cases hs : config.subject = "" <;> by_cases hq : config.queueGroup = "" <;>
    simp [hs, hq, isMetadataOpt]

/-- Names stored in the types map are non-empty (they matched
`nameRegex` when registered); helper deriving that from the regex. -/
theorem nameRegexMatch_ne_empty {n : String} (h : nameRegexMatch n = true) :
    n ≠ "" := by
  intro he
  subst he
  simp [nameRegexMatch] at h

/-- C4 (amended): if a name `n` is already a primary type name, then a
subsequent registration of a pointer-to-struct type under `n` — single
or as the first entry of a batch — returns an error wrapping
`ErrTypeAlreadyExists`, and the registry is left unchanged.  (When the
offered type fails the pointer-to-struct validity check, the earlier
`ErrTypeNotValid` return fires instead — see the counterexample — but
the registry is unchanged in every failing case, since all error returns
precede the map mutations.) -/
theorem c4_already_exists_amended (r : Registry) (n : String) (rt : RType)
    (md : Option (List (String × String))) (vf : Option (GoVal → Option String))
    (info : TypeInfo) (rest : List TypeEntry)
    (hn : lookupA r.types n = some info)
    (hreg : nameRegexMatch n = true)
    (hrt : isPtrToStruct rt = true) :
    r.registerWithOptions n rt md vf = .error (.alreadyExists n) ∧
    r.registerBatch (⟨n, rt, md, vf⟩ :: rest) = .error (.alreadyExists n) ∧
    applyOp r (.regOpts n rt md vf) = r ∧
    applyOp r (.regBatch (⟨n, rt, md, vf⟩ :: rest)) = r := by
  have hne : n ≠ "" := nameRegexMatch_ne_empty hreg
  have h1 : r.registerWithOptions n rt md vf = .error (.alreadyExists n) := by
    simp [Registry.registerWithOptions, if_neg hne, hreg, hrt, hn]
  have h2 : r.registerBatch (⟨n, rt, md, vf⟩ :: rest) = .error (.alreadyExists n) := by
    simp [Registry.registerBatch, batchValidate, batchEntryName, if_neg hne, hreg, hrt, hn]
  refine ⟨h1, h2, ?_, ?_⟩
  · simp [applyOp, h1]
  · simp [applyOp, h2]

/-- Registry holding a single type under the name `a`. -/
def c4Reg : Registry :=
  runOps [.regOpts "a" (.ptrTo tyUser) none none]

/-- TypeInfo entry for `a` in `c4Reg`. -/
def c4Info : TypeInfo := ⟨.ptrTo tyUser, none, [], none⟩

/-- C4 (counterexample): the claim, as stated, promises the
already-exists sentinel for any registration under an existing primary
name, but the pointer-to-struct validity check runs before the
existence check: re-registering `a` with `*int` (the type `Register[int]`
would pass) returns an error wrapping `ErrTypeNotValid`, not
`ErrTypeAlreadyExists`. -/
theorem c4_counterexample :
    c4Reg.registerWithOptions "a" (.ptrTo (.otherT "" "int")) none none
      = .error (.notValid "must be a pointer to a struct") ∧
    RegErr.isAlreadyExists (.notValid "must be a pointer to a struct") = false :=
  ⟨rfl, rfl⟩

/-- Witness for the amended C4 theorem at a concrete registry. -/
theorem c4_already_exists_witness :
    (lookupA c4Reg.types "a" = some c4Info ∧
     nameRegexMatch "a" = true ∧
     isPtrToStruct (.ptrTo tyOrder) = true) ∧
    (c4Reg.registerWithOptions "a" (.ptrTo tyOrder) none none
        = .error (.alreadyExists "a") ∧
     c4Reg.registerBatch [⟨"a", .ptrTo tyOrder, none, none⟩]
        = .error (.alreadyExists "a") ∧
     applyOp c4Reg (.regOpts "a" (.ptrTo tyOrder) none none) = c4Reg ∧
     applyOp c4Reg (.regBatch [⟨"a", .ptrTo tyOrder, none, none⟩]) = c4Reg) :=
  ⟨⟨rfl, by decide, rfl⟩,
   c4_already_exists_amended c4Reg "a" (.ptrTo tyOrder) none none c4Info [] rfl (by decide) rfl⟩

/-- C10 (amended): every basic key-value operation on both store
implementations rejects the empty key with the `ErrEmptyKey` sentinel
before touching any state, and so do `SetTyped`/`GetTyped` on a
`MemoryKV` that has a registry (when the store has no registry, the
registry-presence check fires first — see the counterexample).  An
operation that returns the error produces no new store value, so the
contents are unchanged. -/
theorem c10_empty_key (m : MemoryKV) (j : JetStreamKV) (v : Bytes) (gv : GoVal)
    (opts : List (SetOptions → SetOptions)) (reg : Registry)
    (hreg : m.registry = some reg) :
    m.set "" v opts = .error .emptyKey ∧
    m.get "" = .error .emptyKey ∧
    m.delete "" = .error .emptyKey ∧
    MemoryKV.exists m "" = .error .emptyKey ∧
    j.set "" v opts = .error .emptyKey ∧
    j.get "" = .error .emptyKey ∧
    j.delete "" = .error .emptyKey ∧
    JetStreamKV.exists j "" = .error .emptyKey ∧
    m.setTyped "" gv opts = .error .emptyKey ∧
    m.getTyped "" = .error .emptyKey := by
  refine ⟨rfl, rfl, rfl, rfl, rfl, rfl, rfl, rfl, ?_, ?_⟩
  · simp [MemoryKV.setTyped, hreg]
  · simp [MemoryKV.getTyped, hreg]

/-- Recognizer for the `ErrEmptyKey` sentinel, that is, whether
`errors.Is(err, ErrEmptyKey)` would hold. -/
def KVErr.isEmptyKey : KVErr → Bool
  | .emptyKey => true
  | _ => false

/-- C10 (counterexample): on a `MemoryKV` created without a registry,
`SetTyped` with the empty key returns the registry-required error, not
the `ErrEmptyKey` sentinel, because the registry-presence check precedes
the key check. -/
theorem c10_counterexample :
    MemoryKV.new.setTyped "" GoVal.nilV [] = .error .registryRequired ∧
    KVErr.isEmptyKey .registryRequired = false :=
  ⟨rfl, rfl⟩

/-- Witness for the amended C10 theorem at concrete stores. -/
theorem c10_empty_key_witness :
    ((MemoryKV.newWithOptions (some Registry.new)).registry = some Registry.new) ∧
    ((MemoryKV.newWithOptions (some Registry.new)).set "" (.raw "x") [] = .error .emptyKey ∧
     (MemoryKV.newWithOptions (some Registry.new)).get "" = .error .emptyKey ∧
     (MemoryKV.newWithOptions (some Registry.new)).delete "" = .error .emptyKey ∧
     MemoryKV.exists (MemoryKV.newWithOptions (some Registry.new)) "" = .error .emptyKey ∧
     (JetStreamKV.mk [] none).set "" (.raw "x") [] = .error .emptyKey ∧
     (JetStreamKV.mk [] none).get "" = .error .emptyKey ∧
     (JetStreamKV.mk [] none).delete "" = .error .emptyKey ∧
     JetStreamKV.exists (JetStreamKV.mk [] none) "" = .error .emptyKey ∧
     (MemoryKV.newWithOptions (some Registry.new)).setTyped "" GoVal.nilV [] = .error .emptyKey ∧
     (MemoryKV.newWithOptions (some Registry.new)).getTyped "" = .error .emptyKey) :=
  ⟨rfl,
   c10_empty_key (MemoryKV.newWithOptions (some Registry.new)) (JetStreamKV.mk [] none)
     (.raw "x") GoVal.nilV [] Registry.new rfl⟩

/-- C6: for a type whose registration carries a validation function,
`UnmarshalType` — and through delegation `Unmarshal` and
`UnmarshalTypedData` — invokes the validator on the decoded value: when
the validator returns nil the decoded value is returned, and when it
returns an error the call returns no value and an error wrapping the
`ErrUnmarshal` sentinel. -/
theorem c6_validation_hook (r : Registry) (n d : String)
    (info : TypeInfo) (f : GoVal → Option String)
    (ht : lookupA r.types (r.resolveName n) = some info)
    (hv : info.validate = some f) (hne : n ≠ "") :
    (f (.val info.rtype d) = none →
        r.unmarshalType n d = .ok (.val info.rtype d) ∧
        r.unmarshal ⟨n, d⟩ = .ok (.val info.rtype d) ∧
        r.unmarshalTypedData (some ⟨n, d⟩) = .ok (.val info.rtype d)) ∧
    (∀ msg, f (.val info.rtype d) = some msg →
        r.unmarshalType n d = .error (.unmarshalE "validation failed") ∧
        r.unmarshal ⟨n, d⟩ = .error (.unmarshalE "validation failed") ∧
        r.unmarshalTypedData (some ⟨n, d⟩) = .error (.unmarshalE "validation failed") ∧
        RegErr.wrapsUnmarshal (.unmarshalE "validation failed") = true) := by
  constructor
  · intro hok
    have h1 : r.unmarshalType n d = .ok (.val info.rtype d) := by
      simp [Registry.unmarshalType, ht, hv, hok]
    exact ⟨h1, by simp [Registry.unmarshal, hne, h1],
           by simp [Registry.unmarshalTypedData, hne, h1]⟩
  · intro msg hbad
    have h1 : r.unmarshalType n d = .error (.unmarshalE "validation failed") := by
      simp [Registry.unmarshalType, ht, hv, hbad]
    exact ⟨h1, by simp [Registry.unmarshal, hne, h1],
           by simp [Registry.unmarshalTypedData, hne, h1], rfl⟩

/-- Validator used by the C6 witness: rejects the payload `bad`,
accepts everything else. -/
def valCheck : GoVal → Option String := fun v =>
  match v with
  | .val _ p => if p = "bad" then some "bad payload" else none
  | .nilV => some "nil value"

/-- Registry with one type registered through `RegisterWithValidation`. -/
def c6Reg : Registry :=
  runOps [.regOpts "app.User" (.ptrTo tyUser) none (some valCheck)]

/-- TypeInfo entry stored for `app.User` in `c6Reg`. -/
def c6Info : TypeInfo := ⟨.ptrTo tyUser, none, [], some valCheck⟩

/-- Witness for the C6 theorem, exercising both the accepting and the
rejecting branch of the validator on a concrete registry. -/
theorem c6_validation_witness :
    (lookupA c6Reg.types (c6Reg.resolveName "app.User") = some c6Info ∧
     c6Info.validate = some valCheck ∧
     "app.User" ≠ "" ∧
     valCheck (.val c6Info.rtype "ok") = none ∧
     valCheck (.val c6Info.rtype "bad") = some "bad payload") ∧
    (c6Reg.unmarshalType "app.User" "ok" = .ok (.val c6Info.rtype "ok") ∧
     c6Reg.unmarshal ⟨"app.User", "ok"⟩ = .ok (.val c6Info.rtype "ok") ∧
     c6Reg.unmarshalTypedData (some ⟨"app.User", "ok"⟩) = .ok (.val c6Info.rtype "ok")) ∧
    (c6Reg.unmarshalType "app.User" "bad" = .error (.unmarshalE "validation failed") ∧
     c6Reg.unmarshal ⟨"app.User", "bad"⟩ = .error (.unmarshalE "validation failed") ∧
     c6Reg.unmarshalTypedData (some ⟨"app.User", "bad"⟩)
        = .error (.unmarshalE "validation failed") ∧
     RegErr.wrapsUnmarshal (.unmarshalE "validation failed") = true) :=
  ⟨⟨rfl, rfl, by decide, rfl, rfl⟩,
   (c6_validation_hook c6Reg "app.User" "ok" c6Info valCheck rfl rfl (by decide)).1 rfl,
   (c6_validation_hook c6Reg "app.User" "bad" c6Info valCheck rfl rfl (by decide)).2
     "bad payload" rfl⟩

/-- C1 (amended): `Unmarshal ∘ Marshal` is the identity on any value
whose dynamic pointer-to-struct type is registered, provided the primary
name recorded for the type is not simultaneously an alias of another
type (hypothesis `hna`: the types/aliases disjointness that the C2
registration bug can break, redirecting resolution to the aliased type)
and the type's validation function — if one was registered — accepts the
decoded value (hypothesis `hval`).  The remaining hypotheses are
bookkeeping facts holding in every state the API reaches: the reverse
map names the value's type with a non-empty name whose types entry
carries the value's dynamic type. -/
theorem c1_marshal_roundtrip (r : Registry) (rt : RType) (payload n : String)
    (info : TypeInfo)
    (hr : lookupA r.rtypes (normalizeType rt) = some n)
    (hne : n ≠ "")
    (hna : lookupA r.aliases n = none)
    (ht : lookupA r.types n = some info)
    (hty : info.rtype = rt)
    (hval : ∀ f, info.validate = some f → f (.val rt payload) = none) :
    r.marshal (.val rt payload) = .ok ⟨n, payload⟩ ∧
    r.unmarshal ⟨n, payload⟩ = .ok (.val rt payload) := by
  have hres : r.resolveName n = n := by
    simp [Registry.resolveName, hna]
  have hm : r.marshal (.val rt payload) = .ok ⟨n, payload⟩ := by
    simp [Registry.marshal, Registry.nameOf, hr, jsonMarshalValue]
  refine ⟨hm, ?_⟩
  have hu : r.unmarshalType n payload = .ok (.val rt payload) := by
    rw [Registry.unmarshalType, hres, ht]
    cases hvv : info.validate with
    | none => simp [hvv, hty]
    | some f => simp [hvv, hval f hvv, hty]
  simp [Registry.unmarshal, hne, hu]

/-- Validator that rejects every value, as `RegisterWithValidation`
allows. -/
def rejectAll : GoVal → Option String := fun _ => some "rejected"

/-- Registry with one type registered with an always-rejecting
validator. -/
def c1Reg : Registry :=
  runOps [.regOpts "app.User" (.ptrTo tyUser) none (some rejectAll)]

/-- Registry in the alias-shadow state that the C2 registration bug
makes reachable: `Register(a)`, `AddAlias(b, a)`, `Register(b)`. -/
def shadowReg : Registry :=
  runOps [.regOpts "a" (.ptrTo tyUser) none none,
          .addAlias "b" "a",
          .regOpts "b" (.ptrTo tyOrder) none none]

/-- C1 (counterexample): the claim, as stated, fails in two ways.  With
a type registered via `RegisterWithValidation` whose validator rejects
the decoded value, `Unmarshal` fails on the very bytes `Marshal`
produced, returning the validation error wrapping `ErrUnmarshal`.  And
in the reachable alias-shadow state of the C2 registration bug, a value
of the type registered under `b` — no validator anywhere — marshals to
the type tag `b`, which `Unmarshal` resolves through the alias to `a`,
returning a value of the other registered type, not equal to the
original. -/
theorem c1_counterexample :
    (c1Reg.marshal (.val (.ptrTo tyUser) "u1") = .ok ⟨"app.User", "u1"⟩ ∧
     c1Reg.unmarshal ⟨"app.User", "u1"⟩ = .error (.unmarshalE "validation failed")) ∧
    (shadowReg.marshal (.val (.ptrTo tyOrder) "o1") = .ok ⟨"b", "o1"⟩ ∧
     shadowReg.unmarshal ⟨"b", "o1"⟩ = .ok (.val (.ptrTo tyUser) "o1") ∧
     GoVal.val (.ptrTo tyUser) "o1" ≠ GoVal.val (.ptrTo tyOrder) "o1") :=
  ⟨⟨rfl, rfl⟩, rfl, rfl, by decide⟩

/-- Registry for the C1 witness: one type registered without a
validator. -/
def c1WReg : Registry :=
  runOps [.regOpts "app.User" (.ptrTo tyUser) none none]

/-- TypeInfo entry stored for `app.User` in `c1WReg`. -/
def c1WInfo : TypeInfo := ⟨.ptrTo tyUser, none, [], none⟩

/-- Witness for the amended C1 theorem at a concrete registry and
value. -/
theorem c1_marshal_roundtrip_witness :
    (lookupA c1WReg.rtypes (normalizeType (.ptrTo tyUser)) = some "app.User" ∧
     "app.User" ≠ "" ∧
     lookupA c1WReg.aliases "app.User" = none ∧
     lookupA c1WReg.types "app.User" = some c1WInfo ∧
     c1WInfo.rtype = .ptrTo tyUser ∧
     (∀ f, c1WInfo.validate = some f → f (.val (.ptrTo tyUser) "u1") = none)) ∧
    (c1WReg.marshal (.val (.ptrTo tyUser) "u1") = .ok ⟨"app.User", "u1"⟩ ∧
     c1WReg.unmarshal ⟨"app.User", "u1"⟩ = .ok (.val (.ptrTo tyUser) "u1")) :=
  ⟨⟨rfl, by decide, rfl, rfl, rfl, fun f h => nomatch h⟩,
   c1_marshal_roundtrip c1WReg (.ptrTo tyUser) "u1" "app.User" c1WInfo
     rfl (by decide) rfl rfl rfl (fun f h => nomatch h)⟩

/-- C8 (amended): on a `MemoryKV` carrying a registry, `GetTyped(k)`
after `SetTyped(k, v)` returns `v` for every non-empty key `k` and every
value of a registered pointer-to-struct type, provided the primary name
recorded for the type is not simultaneously an alias of another type
(hypothesis `hna`, breakable through the C2 registration bug) and the
type's validation function — if one was registered — accepts the decoded
value.  The registry hypotheses are those of the marshal round trip. -/
theorem c8_typed_roundtrip (m : MemoryKV) (reg : Registry) (k : String)
    (rt : RType) (payload n : String) (info : TypeInfo)
    (hmreg : m.registry = some reg)
    (hk : k ≠ "")
    (hr : lookupA reg.rtypes (normalizeType rt) = some n)
    (hne : n ≠ "")
    (hna : lookupA reg.aliases n = none)
    (ht : lookupA reg.types n = some info)
    (hty : info.rtype = rt)
    (hval : ∀ f, info.validate = some f → f (.val rt payload) = none) :
    ∃ m', m.setTyped k (.val rt payload) [] = .ok m' ∧
          m'.getTyped k = .ok (.val rt payload) := by
  have hmtd : reg.marshalTypedData (.val rt payload) = .ok ⟨n, payload⟩ := by
    simp [Registry.marshalTypedData, Registry.nameOf, hr, jsonMarshalValue]
  have hset : m.setTyped k (.val rt payload) []
      = .ok { m with data := insertA m.data k (.typedDoc ⟨n, payload⟩) } := by
    simp [MemoryKV.setTyped, hmreg, hk, applySetOpts, hmtd]
  refine ⟨_, hset, ?_⟩
  have hut : reg.unmarshalType n payload = .ok (.val rt payload) := by
    rw [Registry.unmarshalType]
    have hres : reg.resolveName n = n := by simp [Registry.resolveName, hna]
    rw [hres, ht]
    cases hvv : info.validate with
    | none => simp [hvv, hty]
    | some f => simp [hvv, hval f hvv, hty]
  simp [MemoryKV.getTyped, hmreg, hk, lookupA_insertA_self, decodeTypedDoc,
        Registry.unmarshalTypedData, hne, hut]

/-- Registry for the C8 counterexample, with an always-rejecting
validator. -/
def c8Reg : Registry :=
  runOps [.regOpts "app.User" (.ptrTo tyUser) none (some rejectAll)]

/-- MemoryKV over `c8Reg`. -/
def c8Mem : MemoryKV := ⟨[], some c8Reg⟩

/-- The store after the C8 counterexample's `SetTyped`. -/
def c8Mem' : MemoryKV :=
  ⟨[("user.1", .typedDoc ⟨"app.User", "u1"⟩)], some c8Reg⟩

/-- MemoryKV over the alias-shadow registry `shadowReg`. -/
def c8ShadowMem : MemoryKV := ⟨[], some shadowReg⟩

/-- The shadow store after the C8 counterexample's `SetTyped`. -/
def c8ShadowMem' : MemoryKV := ⟨[("k1", .typedDoc ⟨"b", "o1"⟩)], some shadowReg⟩

/-- C8 (counterexample): the claim, as stated, fails in two ways.  With
a type registered via `RegisterWithValidation` whose validator rejects
the decoded value, `SetTyped` succeeds while the subsequent `GetTyped`
fails with the wrapped validation error instead of returning the value.
And over the reachable alias-shadow registry of the C2 bug, `SetTyped`
of a value of the type registered under `b` — no validator anywhere —
stores the type tag `b`, which `GetTyped` resolves through the alias to
`a`, returning a value of the other registered type, not equal to the
one stored. -/
theorem c8_counterexample :
    (c8Mem.setTyped "user.1" (.val (.ptrTo tyUser) "u1") [] = .ok c8Mem' ∧
     c8Mem'.getTyped "user.1" = .error (.unmarshalFailed (.unmarshalE "validation failed"))) ∧
    (c8ShadowMem.setTyped "k1" (.val (.ptrTo tyOrder) "o1") [] = .ok c8ShadowMem' ∧
     c8ShadowMem'.getTyped "k1" = .ok (.val (.ptrTo tyUser) "o1") ∧
     GoVal.val (.ptrTo tyUser) "o1" ≠ GoVal.val (.ptrTo tyOrder) "o1") :=
  ⟨⟨rfl, rfl⟩, rfl, rfl, by decide⟩

/-- MemoryKV for the C8 witness, over the validator-free registry
`c1WReg`. -/
def c8WMem : MemoryKV := ⟨[], some c1WReg⟩

/-- Witness for the amended C8 theorem at a concrete store and value. -/
theorem c8_typed_roundtrip_witness :
    (c8WMem.registry = some c1WReg ∧
     "user.1" ≠ "" ∧
     lookupA c1WReg.rtypes (normalizeType (.ptrTo tyUser)) = some "app.User" ∧
     "app.User" ≠ "" ∧
     lookupA c1WReg.aliases "app.User" = none ∧
     lookupA c1WReg.types "app.User" = some c1WInfo ∧
     c1WInfo.rtype = .ptrTo tyUser ∧
     (∀ f, c1WInfo.validate = some f → f (.val (.ptrTo tyUser) "u1") = none)) ∧
    (∃ m', c8WMem.setTyped "user.1" (.val (.ptrTo tyUser) "u1") [] = .ok m' ∧
           m'.getTyped "user.1" = .ok (.val (.ptrTo tyUser) "u1")) :=
  ⟨⟨rfl, by decide, rfl, by decide, rfl, rfl, rfl, fun f h => nomatch h⟩,
   c8_typed_roundtrip c8WMem c1WReg "user.1" (.ptrTo tyUser) "u1" "app.User" c1WInfo
     rfl (by decide) rfl (by decide) rfl rfl rfl (fun f h => nomatch h)⟩

/-- C3 (amended): after `Unregister(p)` succeeds for a registered type
with primary name `p` and alias list `A`, neither `p` nor any member of
`A` resolves any more — `New`, `UnmarshalType` and `GetTypeInfo` on each
of them fail with an error wrapping `ErrTypeNotRegistered` — and the
entries for every other primary name and every other alias are
unchanged, provided the intended name invariants hold around `p`: `p` is
not itself an alias, every member of `A` still maps to `p` in the alias
map, and no member of `A` is also a primary type name.  The last
condition is breakable through the C2 registration-under-alias bug, and
then an alias of `p` stays resolvable after unregistration — see the
counterexample. -/
theorem c3_unregister_removes_all (r : Registry) (p : String) (info : TypeInfo)
    (hp : lookupA r.types p = some info)
    (hpa : lookupA r.aliases p = none)
    (hA : ∀ a ∈ info.aliases, lookupA r.aliases a = some p)
    (hAt : ∀ a ∈ info.aliases, lookupA r.types a = none) :
    ∃ r', r.unregister p = .ok r' ∧
      (∀ n, (n = p ∨ n ∈ info.aliases) →
        r'.newValue n = .error (.notRegistered n) ∧
        (∀ d, r'.unmarshalType n d = .error (.notRegistered n)) ∧
        r'.getTypeInfo n = .error (.notRegistered n)) ∧
      (∀ q, q ≠ p → lookupA r'.types q = lookupA r.types q) ∧
      (∀ b, b ∉ info.aliases → lookupA r'.aliases b = lookupA r.aliases b) := by
  have hpA : p ∉ info.aliases := by
    intro hmem
    rw [hA p hmem] at hpa
    exact Option.noConfusion hpa
  have hres : r.resolveName p = p := by
    simp [Registry.resolveName, hpa]
  have hun : r.unregister p
      = .ok ⟨eraseA r.types p, eraseA r.rtypes (normalizeType info.rtype),
             eraseAllA r.aliases info.aliases⟩ := by
    rw [Registry.unregister]
    simp only [hres, hp]
  refine ⟨_, hun, ?_, ?_, ?_⟩
  · intro n hn
    have htypes : lookupA (eraseA r.types p) n = none := by
      rcases hn with hn | hn
      · subst hn
        exact lookupA_eraseA_self r.types n
      · have hne : n ≠ p := fun h => hpA (h ▸ hn)
        rw [lookupA_eraseA_ne r.types p n (fun h => hne h.symm)]
        exact hAt n hn
    have hal : lookupA (eraseAllA r.aliases info.aliases) n = none := by
      rw [lookupA_eraseAllA]
      rcases hn with hn | hn
      · subst hn
        simp [hpA, hpa]
      · simp [hn]
    have hresn : Registry.resolveName
        ⟨eraseA r.types p, eraseA r.rtypes (normalizeType info.rtype),
         eraseAllA r.aliases info.aliases⟩ n = n := by
      simp [Registry.resolveName, hal]
    refine ⟨?_, fun d => ?_, ?_⟩
    · rw [Registry.newValue]
      simp only [hresn, htypes]
    · rw [Registry.unmarshalType]
      simp only [hresn, htypes]
    · rw [Registry.getTypeInfo]
      simp only [hresn, htypes]
  · intro q hq
    exact lookupA_eraseA_ne r.types p q (fun h => hq h.symm)
  · intro b hb
    rw [lookupA_eraseAllA]
    simp [hb]

/-- Registry for the C3 witness: type `a` with alias `b`, plus an
unrelated type `c`. -/
def c3Reg : Registry :=
  runOps [.regOpts "a" (.ptrTo tyUser) none none,
          .addAlias "b" "a",
          .regOpts "c" (.ptrTo tyThing) none none]

/-- TypeInfo entry stored for `a` in `c3Reg` (alias list `[b]`). -/
def c3Info : TypeInfo := ⟨.ptrTo tyUser, none, ["b"], none⟩

/-- Witness for the C3 theorem at a concrete registry. -/
theorem c3_unregister_witness :
    (lookupA c3Reg.types "a" = some c3Info ∧
     lookupA c3Reg.aliases "a" = none ∧
     (∀ a ∈ c3Info.aliases, lookupA c3Reg.aliases a = some "a") ∧
     (∀ a ∈ c3Info.aliases, lookupA c3Reg.types a = none)) ∧
    (∃ r', c3Reg.unregister "a" = .ok r' ∧
      (∀ n, (n = "a" ∨ n ∈ c3Info.aliases) →
        r'.newValue n = .error (.notRegistered n) ∧
        (∀ d, r'.unmarshalType n d = .error (.notRegistered n)) ∧
        r'.getTypeInfo n = .error (.notRegistered n)) ∧
      (∀ q, q ≠ "a" → lookupA r'.types q = lookupA c3Reg.types q) ∧
      (∀ b, b ∉ c3Info.aliases → lookupA r'.aliases b = lookupA c3Reg.aliases b)) :=
  ⟨⟨rfl, rfl, by decide, by intro a ha; simp [c3Info] at ha; subst ha; rfl⟩,
   c3_unregister_removes_all c3Reg "a" c3Info rfl rfl (by decide)
     (by intro a ha; simp [c3Info] at ha; subst ha; rfl)⟩

/-- TypeInfo entry for `a` in `shadowReg` (alias list `[b]`). -/
def shadowInfoA : TypeInfo := ⟨.ptrTo tyUser, none, ["b"], none⟩

/-- TypeInfo entry for the type registered under `b` in `shadowReg`. -/
def shadowInfoB : TypeInfo := ⟨.ptrTo tyOrder, none, [], none⟩

/-- Registry left behind by `Unregister(a)` on `shadowReg`. -/
def shadowUnregged : Registry := ⟨[("b", shadowInfoB)], [(tyOrder, "b")], []⟩

/-- C3 (counterexample): in the reachable alias-shadow state of the C2
registration bug, the type `a` has alias list `[b]`, `Unregister(a)`
succeeds, and yet its alias `b` remains resolvable afterwards:
`GetTypeInfo(b)` and `New(b)` succeed — finding the type that was
registered under the alias name — instead of failing with the
not-registered error the claim promises. -/
theorem c3_counterexample :
    lookupA shadowReg.types "a" = some shadowInfoA ∧
    shadowReg.unregister "a" = .ok shadowUnregged ∧
    shadowUnregged.getTypeInfo "b" = .ok shadowInfoB ∧
    shadowUnregged.newValue "b" = .ok (.val (.ptrTo tyOrder) "") :=
  ⟨rfl, rfl, rfl, rfl⟩
